import Mathlib

/-!
Verification of the graph-based workflow engine (`app/engine.py`).

The engine is embedded shallowly:

* Python `None | str | int | bool` state values become the inductive `Value`;
  a Python `dict` (State) becomes an association list `List (String × Value)`
  with Python `dict.get` / `dict.pop` / `d[k] = v` semantics reproduced by
  `alookup`, `eraseKey` and `upsert`.
* A tool invocation (`await tool(run.state)`) is a function
  `State → ToolOutcome`; `ToolOutcome.raised` models the tool raising an
  exception, `ToolOutcome.notDict` models it returning a value that is not a
  dict (the carried string stands for the rendered type name used in the
  engine's TypeError message).
* `uuid.uuid4()` draws are modelled as explicit `graph_id` / `run_id`
  arguments supplied by the environment.
* Methods that mutate the engine (`create_graph`, `run_graph`) return the
  updated engine paired with an `Except` mirroring Python exceptions
  (`EngineError.invalidArgument` for `ValueError`, `EngineError.notFound`
  for `KeyError`); the engine component reflects exactly the mutations the
  Python code performs before raising.
* The `while` loop of `run_graph` becomes the fuel-indexed `runLoop`; the
  fuel equals `max_steps - step_index`, so fuel running out is exactly the
  loop condition `step_index < max_steps` failing.  `LoopResult.raised`
  models an exception escaping the loop body into the `except` block.
-/

namespace WorkflowEngine

/-- A JSON-ish Python value as it occurs in engine state during the
    scenarios under verification: `None`, `str`, `int` or `bool`. -/
inductive Value where
  | vnone : Value
  | vstr : String → Value
  | vint : Int → Value
  | vbool : Bool → Value
deriving DecidableEq, Repr

/-- Python truthiness of a `Value` (used by `if not tool_name`). -/
def Value.truthy : Value → Bool
  | .vnone => false
  | .vstr s => s ≠ ""
  | .vint n => n ≠ 0
  | .vbool b => b

/-- Python `str(v)` for the values we model. -/
def Value.pyStr : Value → String
  | .vnone => "None"
  | .vstr s => s
  | .vint n => toString n
  | .vbool b => if b then "True" else "False"

/-- Python `repr(v)`-style rendering, used in `str(KeyError(v))`. -/
def Value.pyRepr : Value → String
  | .vnone => "None"
  | .vstr s => "'" ++ s ++ "'"
  | .vint n => toString n
  | .vbool b => if b then "True" else "False"

/-- A Python dict flowing through the engine: an association list with the
    first binding of a key authoritative (Python dicts have unique keys). -/
abbrev State := List (String × Value)

/-- Python `d.get(k)` / `d[k]` membership: first binding of `k`, if any. -/
def alookup {α : Type} : List (String × α) → String → Option α
  | [], _ => none
  | (k, v) :: rest, key => if k = key then some v else alookup rest key

/-- The removal part of Python `d.pop(k, None)`: drop every binding of `k`
    (a real dict has at most one). -/
def eraseKey {α : Type} (d : List (String × α)) (k : String) : List (String × α) :=
  d.filter (fun kv => kv.1 ≠ k)

/-- Python `d[k] = v`: overwrite in place if present, else append. -/
def upsert {α : Type} (d : List (String × α)) (k : String) (v : α) : List (String × α) :=
  if (alookup d k).isSome then
    d.map (fun kv => if kv.1 = k then (k, v) else kv)
  else
    d ++ [(k, v)]

/-- The outcome of awaiting one tool invocation. -/
inductive ToolOutcome where
  | ok (new_state : State)
  | notDict (type_name : String)
  | raised (msg : String)
deriving DecidableEq, Repr

/-- A registered tool, already normalized to the async calling convention. -/
abbrev Tool := State → ToolOutcome

/-- Python exception classes surfaced by the engine:
    `invalidArgument` stands for `ValueError`, `notFound` for `KeyError`. -/
inductive EngineError where
  | invalidArgument (message : String)
  | notFound (message : String)
deriving DecidableEq, Repr

def EngineError.message : EngineError → String
  | .invalidArgument m => m
  | .notFound m => m

/-- Whether a call returned normally (`ok`) rather than raising. -/
def isOkE {ε α : Type} : Except ε α → Bool
  | .ok _ => true
  | .error _ => false

/-- `ToolRegistry`: in-memory map from tool names to tools. -/
structure ToolRegistry where
  tools : List (String × Tool)

/-- `ToolRegistry.get`: raises `KeyError` if the name was never registered. -/
def ToolRegistry.get (r : ToolRegistry) (name : String) : Except EngineError Tool :=
  match alookup r.tools name with
  | none => .error (.notFound ("Tool '" ++ name ++ "' not registered"))
  | some t => .ok t

/-- `Node` dataclass. -/
structure Node where
  id : String
  tool_name : String
deriving DecidableEq, Repr

/-- `StepLog` dataclass. -/
structure StepLog where
  step_index : Nat
  node_id : String
  state_snapshot : State
deriving DecidableEq, Repr

/-- `Graph` dataclass. `edges` values are `Optional[str]` (pydantic-enforced
    at the API boundary). -/
structure Graph where
  id : String
  name : String
  nodes : List (String × Node)
  edges : List (String × Option String)
  start_node : String
  max_steps : Nat
deriving Repr

/-- `GraphRun` dataclass.  `current_node` is annotated `Optional[str]` in the
    source but at runtime can hold whatever value a tool put into
    `_next_node`, hence `Option Value`. -/
structure GraphRun where
  id : String
  graph_id : String
  status : String
  current_node : Option Value
  state : State
  log : List StepLog
  error : Option String
deriving DecidableEq, Repr

/-- `GraphEngine` object state: registry plus the two collections. -/
structure GraphEngine where
  tool_registry : ToolRegistry
  graphs : List (String × Graph)
  runs : List (String × GraphRun)

/-- How the `while` loop of `run_graph` ends: `exited` when the loop
    condition fails (carrying the last value assigned to `run.current_node`,
    the run state, the log and the final `step_index`), `raised` when an
    exception escapes the loop body into the `except` block. -/
inductive LoopResult where
  | exited (run_current : Option Value) (state : State) (log : List StepLog)
      (step_index : Nat)
  | raised (run_current : Option Value) (state : State) (log : List StepLog)
      (step_index : Nat) (msg : String)
deriving DecidableEq, Repr

/-- The run log at the moment the loop ends. -/
def LoopResult.log : LoopResult → List StepLog
  | .exited _ _ lg _ => lg
  | .raised _ _ lg _ _ => lg

/-- The value of the Python local `step_index` at the moment the loop ends:
    the number of loop iterations that ran to completion. -/
def LoopResult.stepsExecuted : LoopResult → Nat
  | .exited _ _ _ idx => idx
  | .raised _ _ _ idx _ => idx

/-- The body of `run_graph`'s `while` loop, fuel = `max_steps - step_index`.
    Each iteration: assign `run.current_node`, resolve node and tool
    (a `KeyError` here is modelled as `raised`), invoke the tool, on success
    replace the state, append the log entry (snapshot taken before the pop),
    pop `_next_node` and resolve the next node, increment `step_index`. -/
def runLoop (graph : Graph) (registry : ToolRegistry) :
    Nat → Nat → Option Value → State → List StepLog → Option Value → LoopResult
  | 0, step_index, _, state, log, run_current =>
      .exited run_current state log step_index
  | _ + 1, step_index, none, state, log, run_current =>
      .exited run_current state log step_index
  | fuel + 1, step_index, some cv, state, log, _ =>
      match cv with
      | .vstr node_key =>
        match alookup graph.nodes node_key with
        | none =>
            -- graph.nodes[current_node_id] raises KeyError
            .raised (some cv) state log step_index ("'" ++ node_key ++ "'")
        | some node =>
          match registry.get node.tool_name with
          | .error e => .raised (some cv) state log step_index e.message
          | .ok tool =>
            match tool state with
            | .raised msg => .raised (some cv) state log step_index msg
            | .notDict ty =>
                .raised (some cv) state log step_index
                  ("Tool '" ++ node.tool_name ++ "' must return a dict, got " ++ ty)
            | .ok new_state =>
                let log2 := log ++ [⟨step_index, node_key, new_state⟩]
                let popped := alookup new_state "_next_node"
                let state2 := eraseKey new_state "_next_node"
                let next : Option Value :=
                  match popped with
                  | some v =>
                      if v = .vnone then (alookup graph.edges node_key).join.map .vstr
                      else some v
                  | none => (alookup graph.edges node_key).join.map .vstr
                runLoop graph registry fuel (step_index + 1) next state2 log2 (some cv)
      | _ =>
          -- graph.nodes[current_node_id] with a non-string key raises KeyError
          .raised (some cv) state log step_index cv.pyRepr

/-- Validation pass of `create_graph` over `nodes_config`, in order. -/
def buildNodes (registry : ToolRegistry) :
    List (String × State) → Except EngineError (List (String × Node))
  | [] => .ok []
  | (node_key, cfg) :: rest =>
    match alookup cfg "tool_name" with
    | none => .error (.invalidArgument ("Node '" ++ node_key ++ "' missing 'tool_name'"))
    | some v =>
      if v.truthy then
        match v with
        | .vstr s =>
          match registry.get s with
          | .error e => .error e
          | .ok _ =>
            match buildNodes registry rest with
            | .error e => .error e
            | .ok nodes => .ok ((node_key, ⟨node_key, s⟩) :: nodes)
        | _ =>
            -- a truthy non-string tool name is never a key of the registry
            .error (.notFound ("Tool '" ++ v.pyStr ++ "' not registered"))
      else
        .error (.invalidArgument ("Node '" ++ node_key ++ "' missing 'tool_name'"))

/-- `GraphEngine.create_graph`. The fresh `uuid4` draw is the `graph_id`
    argument. Returns the engine as mutated so far together with the
    result. -/
def create_graph (e : GraphEngine) (name : String)
    (nodes_config : List (String × State)) (edges : List (String × Option String))
    (start_node : String) (max_steps : Nat) (graph_id : String) :
    GraphEngine × Except EngineError Graph :=
  if (alookup nodes_config start_node).isNone then
    (e, .error (.invalidArgument "start_node must be one of nodes_config keys"))
  else
    match buildNodes e.tool_registry nodes_config with
    | .error err => (e, .error err)
    | .ok nodes =>
      let graph : Graph := ⟨graph_id, name, nodes, edges, start_node, max_steps⟩
      ({ e with graphs := upsert e.graphs graph_id graph }, .ok graph)

/-- The loop-guard error message set after the loop. -/
def maxStepsMsg : String := "Max steps exceeded (possible infinite loop)"

/-- The `GraphRun` as it stands when `run_graph` returns: the run is created
    with `status="running"` and then mutated by the loop and the post-loop
    status assignment; this is its final value. -/
def finishRun (graph : Graph) (registry : ToolRegistry) (graph_id run_id : String)
    (initial_state : State) : GraphRun :=
  let startCur : Option Value := some (.vstr graph.start_node)
  match runLoop graph registry graph.max_steps 0 startCur initial_state [] startCur with
  | .exited rc st lg idx =>
    if graph.max_steps ≤ idx then
      { id := run_id, graph_id := graph_id, status := "failed",
        current_node := rc, state := st, log := lg, error := some maxStepsMsg }
    else
      { id := run_id, graph_id := graph_id, status := "completed",
        current_node := none, state := st, log := lg, error := none }
  | .raised rc st lg _ msg =>
      { id := run_id, graph_id := graph_id, status := "failed",
        current_node := rc, state := st, log := lg, error := some msg }

/-- `GraphEngine.run_graph`. The fresh `uuid4` draw is the `run_id`
    argument.  In Python the `GraphRun` object is stored in `self.runs`
    before the loop and then mutated in place; since the caller observes the
    store only after `run_graph` returns, both the store and the caller hold
    the fully-evolved run. -/
def run_graph (e : GraphEngine) (graph_id : String) (initial_state : State)
    (run_id : String) : GraphEngine × Except EngineError GraphRun :=
  match alookup e.graphs graph_id with
  | none => (e, .error (.notFound ("Graph '" ++ graph_id ++ "' not found")))
  | some graph =>
    let run : GraphRun := finishRun graph e.tool_registry graph_id run_id initial_state
    ({ e with runs := upsert e.runs run_id run }, .ok run)

/-- `GraphEngine.get_run`. -/
def get_run (e : GraphEngine) (run_id : String) : Except EngineError GraphRun :=
  match alookup e.runs run_id with
  | none => .error (.notFound ("Run '" ++ run_id ++ "' not found"))
  | some r => .ok r

/-- `cfg.get("tool_name")` is missing or falsy (`if not tool_name`). -/
def lacksToolName (cfg : State) : Bool :=
  match alookup cfg "tool_name" with
  | none => true
  | some v => !v.truthy

/-- A `nodes_config` entry that passes all of `create_graph`'s per-node
    checks: a truthy string tool name naming a registered tool. -/
def entryOk (registry : ToolRegistry) (p : String × State) : Bool :=
  match alookup p.2 "tool_name" with
  | some (.vstr s) => decide (s ≠ "") && (alookup registry.tools s).isSome
  | _ => false

/-! Concrete fixtures used by counterexamples and witnesses. -/

/-- A tool that returns `{"_next_node": None}`: it sets the reserved
    branching key to a null value. -/
def toolNullNext : Tool := fun _ => .ok [("_next_node", Value.vnone)]

/-- A tool that returns the empty dict. -/
def toolEmpty : Tool := fun _ => .ok []

/-- A tool that returns its input state unchanged. -/
def toolIdState : Tool := fun st => .ok st

/-- A tool that always sets the override to the node id `"s"`. -/
def toolSelfLoop : Tool := fun _ => .ok [("_next_node", Value.vstr "s")]

/-- A tool that raises. -/
def toolBoom : Tool := fun _ => .raised "boom"

/-- Two-node graph: static edge `a → b`; `a`'s tool sets a null override. -/
def graphAB : Graph :=
  ⟨"g1", "ab", [("a", ⟨"a", "ta"⟩), ("b", ⟨"b", "tb"⟩)], [("a", some "b")], "a", 10⟩

def engineAB : GraphEngine :=
  ⟨⟨[("ta", toolNullNext), ("tb", toolEmpty)]⟩, [("g1", graphAB)], []⟩

/-- The run produced by executing `graphAB` from the empty state. -/
def runAB : GraphRun :=
  ⟨"r1", "g1", "completed", none, [],
    [⟨0, "a", [("_next_node", Value.vnone)]⟩, ⟨1, "b", []⟩], none⟩

/-- Single-node graph with `max_steps = 1` whose only step terminates
    naturally (no override, edge maps to `None`). -/
def graphBudget : Graph := ⟨"g2", "budget", [("s", ⟨"s", "tid"⟩)], [("s", none)], "s", 1⟩

def engineBudget : GraphEngine := ⟨⟨[("tid", toolIdState)]⟩, [("g2", graphBudget)], []⟩

/-- The run produced by executing `graphBudget` from the empty state. -/
def runBudget : GraphRun :=
  ⟨"r2", "g2", "failed", some (Value.vstr "s"), [], [⟨0, "s", []⟩], some maxStepsMsg⟩

/-- Two-node graph whose second node's tool raises. -/
def graphRaise : Graph :=
  ⟨"g3", "boom", [("a", ⟨"a", "tb"⟩), ("b", ⟨"b", "tboom"⟩)],
    [("a", some "b"), ("b", none)], "a", 10⟩

def engineRaise : GraphEngine :=
  ⟨⟨[("tb", toolEmpty), ("tboom", toolBoom)]⟩, [("g3", graphRaise)], []⟩

/-- Single-node graph whose tool always overrides to its own id. -/
def graphLoopy : Graph := ⟨"g4", "loopy", [("s", ⟨"s", "tl"⟩)], [("s", none)], "s", 3⟩

def engineLoopy : GraphEngine := ⟨⟨[("tl", toolSelfLoop)]⟩, [("g4", graphLoopy)], []⟩

/-- An engine with one registered tool and no graphs yet, for the
    `create_graph` witnesses. -/
def engineFresh : GraphEngine := ⟨⟨[("ta", toolNullNext)]⟩, [], []⟩

/-! Helper lemmas about the dict operations. -/

theorem alookup_eraseKey {α : Type} (d : List (String × α)) (k : String) :
    alookup (eraseKey d k) k = none := by
  induction d with
  | nil => rfl
  | cons p rest ih =>
    by_cases h : p.1 = k
    · simpa [eraseKey, h] using ih
    · simpa [eraseKey, alookup, h] using ih

theorem alookup_append {α : Type} (d1 d2 : List (String × α)) (k : String) :
    alookup (d1 ++ d2) k
      = match alookup d1 k with
        | some v => some v
        | none => alookup d2 k := by
  induction d1 with
  | nil => simp [alookup]
  | cons p rest ih =>
    by_cases h : p.1 = k
    · simp [alookup, h]
    · simpa [alookup, h] using ih

theorem alookup_overwrite {α : Type} (d : List (String × α)) (k : String) (v : α) :
    alookup (d.map (fun kv => if kv.1 = k then (k, v) else kv)) k
      = if (alookup d k).isSome then some v else none := by
  induction d with
  | nil => simp [alookup]
  | cons p rest ih =>
    simp only [List.map_cons]
    by_cases hp : p.1 = k
    · rw [if_pos hp]
      simp [alookup, hp]
    · rw [if_neg hp]
      simp [alookup, hp, ih]

theorem alookup_overwrite_other {α : Type} (d : List (String × α)) (k k2 : String)
    (v : α) (hne : k2 ≠ k) :
    alookup (d.map (fun kv => if kv.1 = k then (k, v) else kv)) k2 = alookup d k2 := by
  induction d with
  | nil => rfl
  | cons p rest ih =>
    simp only [List.map_cons]
    by_cases hp : p.1 = k
    · rw [if_pos hp]
      simp [alookup, hp, Ne.symm hne, ih]
    · rw [if_neg hp]
      simp [alookup, ih]

theorem alookup_upsert_self {α : Type} (d : List (String × α)) (k : String) (v : α) :
    alookup (upsert d k v) k = some v := by
  unfold upsert
  by_cases h : (alookup d k).isSome
  · rw [if_pos h, alookup_overwrite, if_pos h]
  · rw [if_neg h, alookup_append]
    cases hd : alookup d k with
    | some w => exact absurd (by simp [hd]) h
    | none => simp [alookup]

theorem alookup_upsert_other {α : Type} (d : List (String × α)) (k k2 : String)
    (v : α) (hne : k2 ≠ k) : alookup (upsert d k v) k2 = alookup d k2 := by
  unfold upsert
  by_cases h : (alookup d k).isSome
  · rw [if_pos h, alookup_overwrite_other d k k2 v hne]
  · rw [if_neg h, alookup_append]
    cases hd : alookup d k2 with
    | some w => simp [hd]
    | none => simp [hd, alookup, Ne.symm hne]

/-! Structural lemmas about the run loop. -/

theorem runLoop_log_spec (graph : Graph) (registry : ToolRegistry) :
    ∀ (fuel step_index : Nat) (cur : Option Value) (state : State)
      (log : List StepLog) (rc : Option Value),
      log.map StepLog.step_index = List.range step_index →
      log.length = step_index →
      (runLoop graph registry fuel step_index cur state log rc).log.map StepLog.step_index
          = List.range (runLoop graph registry fuel step_index cur state log rc).log.length
        ∧ (runLoop graph registry fuel step_index cur state log rc).log.length
            = (runLoop graph registry fuel step_index cur state log rc).stepsExecuted
        ∧ (runLoop graph registry fuel step_index cur state log rc).stepsExecuted
            ≤ step_index + fuel := by
  intro fuel
  induction fuel with
  | zero =>
    intro idx cur st log rc h1 h2
    refine ⟨?_, ?_, ?_⟩ <;>
      simp only [runLoop, LoopResult.log, LoopResult.stepsExecuted]
    · rw [h2]; exact h1
    · exact h2
    · omega
  | succ n ih =>
    intro idx cur st log rc h1 h2
    cases cur with
    | none =>
      refine ⟨?_, ?_, ?_⟩ <;>
        simp only [runLoop, LoopResult.log, LoopResult.stepsExecuted]
      · rw [h2]; exact h1
      · exact h2
      · omega
    | some cv =>
      cases cv with
      | vnone =>
        refine ⟨?_, ?_, ?_⟩ <;>
          simp only [runLoop, LoopResult.log, LoopResult.stepsExecuted]
        · rw [h2]; exact h1
        · exact h2
        · omega
      | vint m =>
        refine ⟨?_, ?_, ?_⟩ <;>
          simp only [runLoop, LoopResult.log, LoopResult.stepsExecuted]
        · rw [h2]; exact h1
        · exact h2
        · omega
      | vbool b =>
        refine ⟨?_, ?_, ?_⟩ <;>
          simp only [runLoop, LoopResult.log, LoopResult.stepsExecuted]
        · rw [h2]; exact h1
        · exact h2
        · omega
      | vstr node_key =>
        cases hn : alookup graph.nodes node_key with
        | none =>
          refine ⟨?_, ?_, ?_⟩ <;>
            simp only [runLoop, hn, LoopResult.log, LoopResult.stepsExecuted]
          · rw [h2]; exact h1
          · exact h2
          · omega
        | some node =>
          cases ht : registry.get node.tool_name with
          | error err =>
            refine ⟨?_, ?_, ?_⟩ <;>
              simp only [runLoop, hn, ht, LoopResult.log, LoopResult.stepsExecuted]
            · rw [h2]; exact h1
            · exact h2
            · omega
          | ok tool =>
            cases hr : tool st with
            | raised msg =>
              refine ⟨?_, ?_, ?_⟩ <;>
                simp only [runLoop, hn, ht, hr, LoopResult.log, LoopResult.stepsExecuted]
              · rw [h2]; exact h1
              · exact h2
              · omega
            | notDict ty =>
              refine ⟨?_, ?_, ?_⟩ <;>
                simp only [runLoop, hn, ht, hr, LoopResult.log, LoopResult.stepsExecuted]
              · rw [h2]; exact h1
              · exact h2
              · omega
            | ok new_state =>
              have h1' : (log ++ [(⟨idx, node_key, new_state⟩ : StepLog)]).map
                    StepLog.step_index = List.range (idx + 1) := by
                simp [h1, List.range_succ]
              have h2' : (log ++ [(⟨idx, node_key, new_state⟩ : StepLog)]).length
                  = idx + 1 := by
                simp [h2]
              refine ⟨?_, ?_, ?_⟩ <;>
                simp only [runLoop, hn, ht, hr]
              · exact (ih (idx + 1) _ _ _ _ h1' h2').1
              · exact (ih (idx + 1) _ _ _ _ h1' h2').2.1
              · exact Nat.le_trans (ih (idx + 1) _ _ _ _ h1' h2').2.2 (by omega)

theorem run_graph_known (e : GraphEngine) (graph_id run_id : String)
    (initial_state : State) (graph : Graph)
    (hg : alookup e.graphs graph_id = some graph) :
    run_graph e graph_id initial_state run_id
      = ({ e with runs :=
            upsert e.runs run_id (finishRun graph e.tool_registry graph_id run_id initial_state) },
         Except.ok (finishRun graph e.tool_registry graph_id run_id initial_state)) := by
  simp [run_graph, hg]

theorem run_graph_unknown (e : GraphEngine) (graph_id run_id : String)
    (initial_state : State) (hg : alookup e.graphs graph_id = none) :
    run_graph e graph_id initial_state run_id
      = (e, .error (.notFound ("Graph '" ++ graph_id ++ "' not found"))) := by
  simp [run_graph, hg]

theorem finishRun_fields (graph : Graph) (registry : ToolRegistry)
    (graph_id run_id : String) (initial_state : State) :
    (finishRun graph registry graph_id run_id initial_state).id = run_id
    ∧ (finishRun graph registry graph_id run_id initial_state).graph_id = graph_id
    ∧ (finishRun graph registry graph_id run_id initial_state).log
      = (runLoop graph registry graph.max_steps 0 (some (Value.vstr graph.start_node))
          initial_state [] (some (Value.vstr graph.start_node))).log := by
  unfold finishRun
  cases hres : runLoop graph registry graph.max_steps 0
      (some (Value.vstr graph.start_node)) initial_state []
      (some (Value.vstr graph.start_node)) with
  | exited rc st lg idx =>
    by_cases h : graph.max_steps ≤ idx <;> simp [hres, h, LoopResult.log]
  | raised rc st lg idx msg => simp [hres, LoopResult.log]

/-- C1: the claim is false on the code at a concrete input.  Node `a`'s tool
    returns a state carrying the reserved key `"_next_node"` with a null
    value and the static edge map has `a → b`, yet the run does not
    terminate at that step: it proceeds to `b` along the static edge and
    completes after two steps. -/
theorem C1_counterexample :
    toolNullNext [] = ToolOutcome.ok [("_next_node", Value.vnone)]
    ∧ alookup graphAB.edges "a" = some (some "b")
    ∧ (run_graph engineAB "g1" [] "r1").2 = Except.ok runAB
    ∧ runAB.status = "completed"
    ∧ runAB.log.length = 2
    ∧ runAB.log.map StepLog.node_id = ["a", "b"] :=
  ⟨rfl, rfl, rfl, rfl, rfl, rfl⟩

/-- C1 (amended): when the executing tool's returned state carries the
    reserved branching key with a null value, the key is removed from the
    state, but it does not override the static edge map: the next node is
    resolved from the static edge of the current node, so the run terminates
    at that step only if the static edge map also yields no next node.  Only
    a non-null override value supersedes the static edge. -/
theorem C1_null_override_falls_back_to_edges (graph : Graph) (registry : ToolRegistry)
    (fuel step_index : Nat) (state : State) (log : List StepLog) (rc : Option Value)
    (node_key : String) (node : Node) (tool : Tool) (new_state : State)
    (hnode : alookup graph.nodes node_key = some node)
    (htool : registry.get node.tool_name = .ok tool)
    (hrun : tool state = .ok new_state)
    (hkey : alookup new_state "_next_node" = some Value.vnone) :
    runLoop graph registry (fuel + 1) step_index (some (Value.vstr node_key))
        state log rc
      = runLoop graph registry fuel (step_index + 1)
          ((alookup graph.edges node_key).join.map Value.vstr)
          (eraseKey new_state "_next_node")
          (log ++ [⟨step_index, node_key, new_state⟩])
          (some (Value.vstr node_key)) := by
  simp [runLoop, hnode, htool, hrun, hkey]

theorem C1_witness :
    runLoop graphAB engineAB.tool_registry 9 0 (some (Value.vstr "a")) [] []
        (some (Value.vstr "a"))
      = runLoop graphAB engineAB.tool_registry 8 1
          ((alookup graphAB.edges "a").join.map Value.vstr)
          (eraseKey [("_next_node", Value.vnone)] "_next_node")
          ([] ++ [⟨0, "a", [("_next_node", Value.vnone)]⟩])
          (some (Value.vstr "a")) :=
  C1_null_override_falls_back_to_edges graphAB engineAB.tool_registry 8 0 [] []
    (some (Value.vstr "a")) "a" ⟨"a", "ta"⟩ toolNullNext
    [("_next_node", Value.vnone)] rfl rfl rfl rfl

/-- C2: the claim is false on the code at a concrete input.  A single-node
    graph with `max_steps = 1` whose only step terminates naturally (no
    override, edge maps to null) exits the loop with `step_index = 1 =
    max_steps`, and the post-loop check marks the run failed with the
    loop-guard error and leaves `current_node` set — the claim demands
    `completed` with `current_node` cleared in exactly this situation. -/
theorem C2_counterexample :
    toolIdState [] = ToolOutcome.ok []
    ∧ alookup graphBudget.edges "s" = some none
    ∧ graphBudget.max_steps = 1
    ∧ (run_graph engineBudget "g2" [] "r2").2 = Except.ok runBudget
    ∧ runBudget.status = "failed"
    ∧ runBudget.error = some maxStepsMsg
    ∧ runBudget.current_node = some (Value.vstr "s")
    ∧ runBudget.log.length = 1 :=
  ⟨rfl, rfl, rfl, rfl, rfl, rfl, rfl, rfl⟩

/-- C2 (amended): after the loop the run's status depends only on whether
    the final step count reached `max_steps`: if `step_index ≥ max_steps`
    the status is failed with the loop-guard error — even when the final
    successfully executed step yielded no next node exactly at the budget —
    and otherwise the status is completed with `current_node` cleared. -/
theorem C2_post_loop_status (e : GraphEngine) (graph_id run_id : String)
    (initial_state : State) (graph : Graph) (rc : Option Value) (st : State)
    (lg : List StepLog) (idx : Nat)
    (hg : alookup e.graphs graph_id = some graph)
    (hloop : runLoop graph e.tool_registry graph.max_steps 0
        (some (Value.vstr graph.start_node)) initial_state []
        (some (Value.vstr graph.start_node)) = .exited rc st lg idx) :
    (run_graph e graph_id initial_state run_id).2
      = Except.ok (if graph.max_steps ≤ idx then
            (⟨run_id, graph_id, "failed", rc, st, lg, some maxStepsMsg⟩ : GraphRun)
          else
            (⟨run_id, graph_id, "completed", none, st, lg, none⟩ : GraphRun)) := by
  rw [run_graph_known e graph_id run_id initial_state graph hg]
  simp only [finishRun, hloop]

theorem C2_witness :
    (run_graph engineBudget "g2" [] "r2").2
      = Except.ok (if graphBudget.max_steps ≤ 1 then
            (⟨"r2", "g2", "failed", some (Value.vstr "s"), [], [⟨0, "s", []⟩],
              some maxStepsMsg⟩ : GraphRun)
          else
            (⟨"r2", "g2", "completed", none, [], [⟨0, "s", []⟩], none⟩ : GraphRun)) :=
  C2_post_loop_status engineBudget "g2" "r2" [] graphBudget
    (some (Value.vstr "s")) [] [⟨0, "s", []⟩] 1 rfl (by decide)

/-- C3: the claim is false on the code at a concrete input.  The step-log
    snapshot is taken before the branching signal is consumed, so the first
    log entry of this run carries the reserved key `"_next_node"` in its
    state snapshot. -/
theorem C3_counterexample :
    (run_graph engineAB "g1" [] "r1").2 = Except.ok runAB
    ∧ runAB.log.map (fun entry => alookup entry.state_snapshot "_next_node")
        = [some Value.vnone, none]
    ∧ alookup runAB.state "_next_node" = none :=
  ⟨rfl, rfl, rfl⟩

/-- C3 (amended): the log entry appended for a successful step snapshots the
    tool's returned state before the branching signal is consumed, so the
    reserved key appears in that entry's snapshot whenever the tool returned
    it; the key is popped from the run's state immediately afterwards, so it
    never appears in the run's state carried into subsequent steps or seen
    by a caller after the engine consumed it. -/
theorem C3_snapshot_before_pop (graph : Graph) (registry : ToolRegistry)
    (fuel step_index : Nat) (state : State) (log : List StepLog) (rc : Option Value)
    (node_key : String) (node : Node) (tool : Tool) (new_state : State)
    (hnode : alookup graph.nodes node_key = some node)
    (htool : registry.get node.tool_name = .ok tool)
    (hrun : tool state = .ok new_state) :
    runLoop graph registry (fuel + 1) step_index (some (Value.vstr node_key))
        state log rc
      = runLoop graph registry fuel (step_index + 1)
          (match alookup new_state "_next_node" with
           | some v => if v = Value.vnone
               then (alookup graph.edges node_key).join.map Value.vstr
               else some v
           | none => (alookup graph.edges node_key).join.map Value.vstr)
          (eraseKey new_state "_next_node")
          (log ++ [⟨step_index, node_key, new_state⟩])
          (some (Value.vstr node_key))
    ∧ alookup (eraseKey new_state "_next_node") "_next_node" = none := by
  constructor
  · simp only [runLoop, hnode, htool, hrun]
  · exact alookup_eraseKey new_state "_next_node"

theorem buildNodes_head_missing (registry : ToolRegistry) (node_key : String)
    (cfg : State) (rest : List (String × State))
    (h : lacksToolName cfg = true) :
    buildNodes registry ((node_key, cfg) :: rest)
      = .error (.invalidArgument ("Node '" ++ node_key ++ "' missing 'tool_name'")) := by
  unfold buildNodes
  unfold lacksToolName at h
  cases hv : alookup cfg "tool_name" with
  | none => simp [hv]
  | some v =>
    rw [hv] at h
    simp only [Bool.not_eq_true'] at h
    simp [hv, h]

theorem buildNodes_head_unregistered (registry : ToolRegistry) (node_key : String)
    (cfg : State) (rest : List (String × State)) (s : String)
    (hv : alookup cfg "tool_name" = some (Value.vstr s)) (hs : s ≠ "")
    (hreg : alookup registry.tools s = none) :
    buildNodes registry ((node_key, cfg) :: rest)
      = .error (.notFound ("Tool '" ++ s ++ "' not registered")) := by
  unfold buildNodes
  simp [hv, Value.truthy, hs, ToolRegistry.get, hreg]

theorem buildNodes_error_after_ok_prefix (registry : ToolRegistry) :
    ∀ (pre rest : List (String × State)),
      (∀ p ∈ pre, entryOk registry p = true) →
      ∀ err, buildNodes registry rest = .error err →
      buildNodes registry (pre ++ rest) = .error err := by
  intro pre
  induction pre with
  | nil =>
    intro rest h err herr
    simpa using herr
  | cons p t ih =>
    intro rest h err herr
    obtain ⟨pk, pc⟩ := p
    have hp : entryOk registry (pk, pc) = true := h (pk, pc) (by simp)
    have ht : ∀ q ∈ t, entryOk registry q = true := fun q hq => h q (by simp [hq])
    unfold entryOk at hp
    cases hv : alookup pc "tool_name" with
    | none => rw [hv] at hp; simp at hp
    | some v =>
      rw [hv] at hp
      cases v with
      | vstr s =>
        simp only [decide_eq_true_eq, Bool.and_eq_true] at hp
        obtain ⟨hs, hreg⟩ := hp
        obtain ⟨tool, htool⟩ := Option.isSome_iff_exists.mp hreg
        show buildNodes registry ((pk, pc) :: (t ++ rest)) = .error err
        unfold buildNodes
        simp [hv, Value.truthy, hs, ToolRegistry.get, htool, ih rest ht err herr]
      | vnone => simp at hp
      | vint m => simp at hp
      | vbool b => simp at hp

/-- C7: `create_graph` fails with InvalidArgument when `start_node` is not a
    key of the supplied node configs; when the first offending node config
    (all entries before it being valid) lacks a tool name it fails with
    InvalidArgument; and when the first offending node config names an
    unregistered tool it fails with the registry's NotFound — the tool
    lookup happens inside `create_graph`, i.e. eagerly at graph-build
    time. -/
theorem C7_create_graph_validation (e : GraphEngine) (name : String)
    (pre rest : List (String × State)) (node_key : String) (cfg : State)
    (s : String) (edges : List (String × Option String)) (start_node : String)
    (max_steps : Nat) (graph_id : String) :
    ((alookup (pre ++ (node_key, cfg) :: rest) start_node).isNone →
        create_graph e name (pre ++ (node_key, cfg) :: rest) edges start_node
            max_steps graph_id
          = (e, .error (.invalidArgument "start_node must be one of nodes_config keys")))
    ∧ ((alookup (pre ++ (node_key, cfg) :: rest) start_node).isSome →
        (∀ p ∈ pre, entryOk e.tool_registry p = true) →
        lacksToolName cfg = true →
        create_graph e name (pre ++ (node_key, cfg) :: rest) edges start_node
            max_steps graph_id
          = (e, .error (.invalidArgument ("Node '" ++ node_key ++ "' missing 'tool_name'"))))
    ∧ ((alookup (pre ++ (node_key, cfg) :: rest) start_node).isSome →
        (∀ p ∈ pre, entryOk e.tool_registry p = true) →
        alookup cfg "tool_name" = some (Value.vstr s) → s ≠ "" →
        alookup e.tool_registry.tools s = none →
        create_graph e name (pre ++ (node_key, cfg) :: rest) edges start_node
            max_steps graph_id
          = (e, .error (.notFound ("Tool '" ++ s ++ "' not registered")))) := by
  refine ⟨?_, ?_, ?_⟩
  · intro h
    simp [create_graph, h]
  · intro h hpre hlack
    have herr := buildNodes_error_after_ok_prefix e.tool_registry pre
      ((node_key, cfg) :: rest) hpre _
      (buildNodes_head_missing e.tool_registry node_key cfg rest hlack)
    simp [create_graph, Option.isNone_iff_eq_none, Option.isSome_iff_exists] at h ⊢
    obtain ⟨g, hg⟩ := h
    simp [hg, herr]
  · intro h hpre hv hs hreg
    have herr := buildNodes_error_after_ok_prefix e.tool_registry pre
      ((node_key, cfg) :: rest) hpre _
      (buildNodes_head_unregistered e.tool_registry node_key cfg rest s hv hs hreg)
    simp [create_graph, Option.isNone_iff_eq_none, Option.isSome_iff_exists] at h ⊢
    obtain ⟨g, hg⟩ := h
    simp [hg, herr]

theorem C7_witness :
    (create_graph engineFresh "w1" ([] ++ ("n", [("tool_name", Value.vstr "ta")]) :: [])
        [] "missing" 5 "gx"
      = (engineFresh, .error (.invalidArgument "start_node must be one of nodes_config keys")))
    ∧ (create_graph engineFresh "w2" ([] ++ ("n", []) :: []) [] "n" 5 "gy"
      = (engineFresh, .error (.invalidArgument ("Node '" ++ "n" ++ "' missing 'tool_name'"))))
    ∧ (create_graph engineFresh "w3" ([] ++ ("n", [("tool_name", Value.vstr "zz")]) :: [])
        [] "n" 5 "gz"
      = (engineFresh, .error (.notFound ("Tool '" ++ "zz" ++ "' not registered")))) :=
  ⟨(C7_create_graph_validation engineFresh "w1" [] [] "n"
      [("tool_name", Value.vstr "ta")] "zz" [] "missing" 5 "gx").1 rfl,
   (C7_create_graph_validation engineFresh "w2" [] [] "n" [] "zz" [] "n" 5 "gy").2.1
      rfl (by intro p hp; simp at hp) rfl,
   (C7_create_graph_validation engineFresh "w3" [] [] "n"
      [("tool_name", Value.vstr "zz")] "zz" [] "n" 5 "gz").2.2
      rfl (by intro p hp; simp at hp) rfl (by decide) rfl⟩

/-- C4: `run_graph` raises to its caller exactly when the supplied
    `graph_id` is unknown, in which case the engine is unchanged (no Run is
    created) and the error is the NotFound lookup failure; for every known
    `graph_id` it returns a Run normally, whatever the graph's tools do —
    the loop's failures land in the returned Run, never in an exception. -/
theorem C4_raise_iff_unknown_graph (e : GraphEngine) (graph_id run_id : String)
    (initial_state : State) :
    (isOkE (run_graph e graph_id initial_state run_id).2
        = (alookup e.graphs graph_id).isSome)
    ∧ (alookup e.graphs graph_id = none →
        run_graph e graph_id initial_state run_id
          = (e, .error (.notFound ("Graph '" ++ graph_id ++ "' not found")))) := by
  constructor
  · cases hg : alookup e.graphs graph_id with
    | none => rw [run_graph_unknown e graph_id run_id initial_state hg]; rfl
    | some graph => rw [run_graph_known e graph_id run_id initial_state graph hg]; rfl
  · intro hg
    exact run_graph_unknown e graph_id run_id initial_state hg

theorem C4_witness :
    (isOkE (run_graph engineAB "g1" [] "r1").2 = (alookup engineAB.graphs "g1").isSome)
    ∧ (isOkE (run_graph engineAB "nope" [] "r9").2
        = (alookup engineAB.graphs "nope").isSome)
    ∧ run_graph engineAB "nope" [] "r9"
        = (engineAB, .error (.notFound ("Graph '" ++ "nope" ++ "' not found"))) :=
  ⟨(C4_raise_iff_unknown_graph engineAB "g1" "r1" []).1,
   (C4_raise_iff_unknown_graph engineAB "nope" "r9" []).1,
   (C4_raise_iff_unknown_graph engineAB "nope" "r9" []).2 rfl⟩

/-- C5: when the run's next step (here: the step at index `k`, reached with
    `log` holding the `k` entries of the prior successful steps and `state`
    the state those steps produced) invokes a tool that raises or returns a
    non-dict, the run ends failed with a descriptive error, no log entry is
    appended for the incomplete step, and the run's state remains the state
    produced by the last successful step. -/
theorem C5_step_failure_captured (e : GraphEngine) (graph_id run_id : String)
    (initial_state : State) (graph : Graph) (k fuel : Nat) (state : State)
    (log : List StepLog) (rc : Option Value) (node_key : String) (node : Node)
    (tool : Tool) (msg : String)
    (hg : alookup e.graphs graph_id = some graph)
    (hreach : runLoop graph e.tool_registry graph.max_steps 0
        (some (Value.vstr graph.start_node)) initial_state []
        (some (Value.vstr graph.start_node))
      = runLoop graph e.tool_registry (fuel + 1) k (some (Value.vstr node_key))
          state log rc)
    (hlen : log.length = k)
    (hnode : alookup graph.nodes node_key = some node)
    (htool : e.tool_registry.get node.tool_name = .ok tool)
    (hfail : tool state = .raised msg
      ∨ ∃ ty, tool state = .notDict ty
          ∧ msg = "Tool '" ++ node.tool_name ++ "' must return a dict, got " ++ ty) :
    (run_graph e graph_id initial_state run_id).2
      = Except.ok ⟨run_id, graph_id, "failed", some (Value.vstr node_key),
          state, log, some msg⟩ := by
  rw [run_graph_known e graph_id run_id initial_state graph hg]
  show Except.ok (finishRun graph e.tool_registry graph_id run_id initial_state) = _
  simp only [finishRun]
  rw [hreach]
  rcases hfail with hmsg | ⟨ty, hty, hmsg⟩
  · simp only [runLoop, hnode, htool, hmsg]
  · subst hmsg
    simp only [runLoop, hnode, htool, hty]

theorem C5_witness :
    (run_graph engineRaise "g3" [] "r3").2
      = Except.ok ⟨"r3", "g3", "failed", some (Value.vstr "b"), [],
          [⟨0, "a", []⟩], some "boom"⟩ :=
  C5_step_failure_captured engineRaise "g3" "r3" [] graphRaise 1 8 []
    [⟨0, "a", []⟩] (some (Value.vstr "a")) "b" ⟨"b", "tboom"⟩ toolBoom "boom"
    rfl (by decide) rfl rfl rfl (Or.inl rfl)

/-- C6: for every run returned by `run_graph` — completed or failed — the
    log's `step_index` values are exactly `0, 1, 2, ...` in append order,
    the log's length equals the number of loop iterations that ran to
    completion (one entry per successfully executed step), and that count
    never exceeds the graph's `max_steps`. -/
theorem C6_log_shape (e : GraphEngine) (graph_id run_id : String)
    (initial_state : State) (graph : Graph) (e2 : GraphEngine) (run : GraphRun)
    (hg : alookup e.graphs graph_id = some graph)
    (hrun : run_graph e graph_id initial_state run_id = (e2, Except.ok run)) :
    run.log.map StepLog.step_index = List.range run.log.length
    ∧ run.log.length
        = (runLoop graph e.tool_registry graph.max_steps 0
            (some (Value.vstr graph.start_node)) initial_state []
            (some (Value.vstr graph.start_node))).stepsExecuted
    ∧ run.log.length ≤ graph.max_steps := by
  rw [run_graph_known e graph_id run_id initial_state graph hg] at hrun
  have hrun2 : run = finishRun graph e.tool_registry graph_id run_id initial_state := by
    have h2 := congrArg Prod.snd hrun
    simp only [Prod.snd] at h2
    exact (Except.ok.injEq _ _ ▸ h2 : _ = run).symm
  subst hrun2
  rw [(finishRun_fields graph e.tool_registry graph_id run_id initial_state).2.2]
  have H := runLoop_log_spec graph e.tool_registry graph.max_steps 0
      (some (Value.vstr graph.start_node)) initial_state []
      (some (Value.vstr graph.start_node)) (by simp) (by simp)
  refine ⟨H.1, H.2.1, ?_⟩
  have h1 := H.2.1
  have h2 := H.2.2
  omega

theorem C6_witness :
    runAB.log.map StepLog.step_index = List.range runAB.log.length
    ∧ runAB.log.length
        = (runLoop graphAB engineAB.tool_registry graphAB.max_steps 0
            (some (Value.vstr graphAB.start_node)) [] []
            (some (Value.vstr graphAB.start_node))).stepsExecuted
    ∧ runAB.log.length ≤ graphAB.max_steps :=
  C6_log_shape engineAB "g1" "r1" [] graphAB
    ⟨engineAB.tool_registry, engineAB.graphs, [("r1", runAB)]⟩ runAB rfl rfl

theorem runLoop_self_override (graph : Graph) (registry : ToolRegistry)
    (node_key tool_key : String) (tool : Tool)
    (hnode : alookup graph.nodes node_key = some ⟨node_key, tool_key⟩)
    (htool : registry.get tool_key = .ok tool)
    (hself : ∀ st, ∃ st2, tool st = .ok st2
        ∧ alookup st2 "_next_node" = some (Value.vstr node_key)) :
    ∀ (fuel step_index : Nat) (state : State) (log : List StepLog) (rc : Option Value),
      ∃ rc2 st2 lg2,
        runLoop graph registry fuel step_index (some (Value.vstr node_key)) state log rc
          = .exited rc2 st2 lg2 (step_index + fuel)
        ∧ lg2.length = log.length + fuel := by
  intro fuel
  induction fuel with
  | zero =>
    intro idx st log rc
    exact ⟨rc, st, log, by simp [runLoop], by simp⟩
  | succ n ih =>
    intro idx st log rc
    obtain ⟨st2, hok, hkey⟩ := hself st
    obtain ⟨rc3, st3, lg3, hrec, hlen⟩ := ih (idx + 1) (eraseKey st2 "_next_node")
      (log ++ [⟨idx, node_key, st2⟩]) (some (Value.vstr node_key))
    refine ⟨rc3, st3, lg3, ?_, ?_⟩
    · have harith : (idx + 1) + n = idx + (n + 1) := by omega
      rw [harith] at hrec
      simp only [runLoop, hnode, htool, hok, hkey]
      simpa using hrec
    · simp only [List.length_append, List.length_cons, List.length_nil] at hlen
      omega

/-- C8: for every graph whose designated start node is a single node whose
    tool always sets the branching override to that node's own id,
    `run_graph` executes exactly `max_steps` steps, producing `max_steps`
    log entries, and ends with status failed and the loop-guard error. -/
theorem C8_self_loop_exhausts_budget (e : GraphEngine) (graph_id run_id : String)
    (initial_state : State) (graph : Graph) (node_key tool_key : String) (tool : Tool)
    (hg : alookup e.graphs graph_id = some graph)
    (hstart : graph.start_node = node_key)
    (hnode : alookup graph.nodes node_key = some ⟨node_key, tool_key⟩)
    (htool : e.tool_registry.get tool_key = .ok tool)
    (hself : ∀ st, ∃ st2, tool st = .ok st2
        ∧ alookup st2 "_next_node" = some (Value.vstr node_key)) :
    Except.map (fun run => (run.status, run.error, run.log.length))
        (run_graph e graph_id initial_state run_id).2
      = Except.ok ("failed", some maxStepsMsg, graph.max_steps) := by
  subst hstart
  rw [run_graph_known e graph_id run_id initial_state graph hg]
  obtain ⟨rc2, st2, lg2, hres, hlen⟩ := runLoop_self_override graph e.tool_registry
    graph.start_node tool_key tool hnode htool hself graph.max_steps 0 initial_state []
    (some (Value.vstr graph.start_node))
  show Except.map _ (Except.ok (finishRun graph e.tool_registry graph_id run_id initial_state)) = _
  simp only [Except.map, finishRun, hres]
  rw [if_pos (by omega)]
  simp only [List.length_nil, Nat.zero_add] at hlen
  simp [hlen]

theorem C8_witness :
    Except.map (fun run => (run.status, run.error, run.log.length))
        (run_graph engineLoopy "g4" [] "r4").2
      = Except.ok ("failed", some maxStepsMsg, graphLoopy.max_steps) :=
  C8_self_loop_exhausts_budget engineLoopy "g4" "r4" [] graphLoopy "s" "tl"
    toolSelfLoop rfl rfl rfl rfl
    (fun _ => ⟨[("_next_node", Value.vstr "s")], rfl, rfl⟩)

/-- C9: `create_graph` is atomic with respect to the engine: on every
    validation failure it returns the engine unchanged (no graph stored),
    and it stores a graph only when the whole node validation pass
    succeeded, in which case only the graph collection changes and the new
    graph's nodes are exactly the validated ones. -/
theorem C9_create_graph_atomic (e : GraphEngine) (name : String)
    (nodes_config : List (String × State)) (edges : List (String × Option String))
    (start_node : String) (max_steps : Nat) (graph_id : String) :
    match create_graph e name nodes_config edges start_node max_steps graph_id with
    | (e2, .error _) => e2 = e
    | (e2, .ok graph) =>
        e2.tool_registry = e.tool_registry
        ∧ e2.graphs = upsert e.graphs graph_id graph
        ∧ e2.runs = e.runs
        ∧ buildNodes e.tool_registry nodes_config = .ok graph.nodes := by
  unfold create_graph
  cases h : (alookup nodes_config start_node).isNone with
  | true => simp [h]
  | false =>
    simp only [h, Bool.false_eq_true, if_false]
    cases hb : buildNodes e.tool_registry nodes_config with
    | error err => simp
    | ok nodes => exact ⟨rfl, rfl, rfl, rfl⟩

/-- C10: the run returned by `run_graph` is stored in the engine's run
    collection under its fresh id with all previously stored runs retained,
    so a subsequent `get_run` with the returned run's id yields that very
    run — completed or failed — and `get_run` fails, with NotFound, exactly
    for ids that are absent from the run collection. -/
theorem C10_run_retrievable (e : GraphEngine) (graph_id run_id rid : String)
    (initial_state : State) (graph : Graph) (e2 : GraphEngine) (run : GraphRun)
    (hg : alookup e.graphs graph_id = some graph)
    (hrun : run_graph e graph_id initial_state run_id = (e2, Except.ok run)) :
    run.id = run_id
    ∧ e2.runs = upsert e.runs run_id run
    ∧ get_run e2 run.id = Except.ok run
    ∧ (isOkE (get_run e2 rid) = (alookup e2.runs rid).isSome)
    ∧ (alookup e2.runs rid = none →
        get_run e2 rid = .error (.notFound ("Run '" ++ rid ++ "' not found"))) := by
  rw [run_graph_known e graph_id run_id initial_state graph hg] at hrun
  injection hrun with he2 hok
  injection hok with hr
  subst he2
  subst hr
  have hid := (finishRun_fields graph e.tool_registry graph_id run_id initial_state).1
  refine ⟨hid, rfl, ?_, ?_, ?_⟩
  · rw [hid]
    unfold get_run
    rw [alookup_upsert_self]
  · unfold get_run
    cases hl : alookup (upsert e.runs run_id
        (finishRun graph e.tool_registry graph_id run_id initial_state)) rid <;>
      simp [hl, isOkE]
  · intro hnone
    unfold get_run
    rw [hnone]

theorem C10_witness :
    runAB.id = "r1"
    ∧ get_run (⟨engineAB.tool_registry, engineAB.graphs, [("r1", runAB)]⟩ : GraphEngine)
        runAB.id = Except.ok runAB
    ∧ get_run (⟨engineAB.tool_registry, engineAB.graphs, [("r1", runAB)]⟩ : GraphEngine)
        "zz" = Except.error (.notFound ("Run '" ++ "zz" ++ "' not found")) :=
  ⟨(C10_run_retrievable engineAB "g1" "r1" "zz" [] graphAB
      ⟨engineAB.tool_registry, engineAB.graphs, [("r1", runAB)]⟩ runAB rfl rfl).1,
   (C10_run_retrievable engineAB "g1" "r1" "zz" [] graphAB
      ⟨engineAB.tool_registry, engineAB.graphs, [("r1", runAB)]⟩ runAB rfl rfl).2.2.1,
   (C10_run_retrievable engineAB "g1" "r1" "zz" [] graphAB
      ⟨engineAB.tool_registry, engineAB.graphs, [("r1", runAB)]⟩ runAB rfl rfl).2.2.2.2 rfl⟩

theorem C3_witness :
    (runLoop graphAB engineAB.tool_registry 9 0 (some (Value.vstr "a")) [] []
        (some (Value.vstr "a"))
      = runLoop graphAB engineAB.tool_registry 8 1
          (match alookup [("_next_node", Value.vnone)] "_next_node" with
           | some v => if v = Value.vnone
               then (alookup graphAB.edges "a").join.map Value.vstr
               else some v
           | none => (alookup graphAB.edges "a").join.map Value.vstr)
          (eraseKey [("_next_node", Value.vnone)] "_next_node")
          ([] ++ [⟨0, "a", [("_next_node", Value.vnone)]⟩])
          (some (Value.vstr "a")))
    ∧ alookup (eraseKey [("_next_node", Value.vnone)] "_next_node") "_next_node"
        = none :=
  C3_snapshot_before_pop graphAB engineAB.tool_registry 8 0 [] []
    (some (Value.vstr "a")) "a" ⟨"a", "ta"⟩ toolNullNext
    [("_next_node", Value.vnone)] rfl rfl rfl

end WorkflowEngine
